import Mathlib

/-!
Verification development for the reikna computation-graph core
(`reikna/core/computation.py`), its reduction collaborator (`reikna/reduce.py`)
and the test-suite computations (`test/test_core/test_core.py`).

The Python code is shallowly embedded: dictionaries become association lists
with first-match lookup (an assignment conses a new binding, which shadows the
old one), numpy dtypes become an abstract `Dtype := Nat` tag (only compared for
equality), exceptions become an `Except PyErr` result, and the mutable
`Computation` object becomes an explicit `CompState` record threaded through
the methods.
-/

deriving instance DecidableEq for Except

namespace Reikna

/-- numpy dtypes are opaque tags in the core: they are only stored, passed
around and compared for equality, so we embed them as `Nat`. -/
abbrev Dtype := Nat

/-- `ArrayValue(shape, dtype)` / `ScalarValue(dtype)` from
`reikna.core.transformation`; a `none` field is Python's `None`
(an unresolved shape or dtype). -/
inductive Value where
  | array (shape : Option (List Nat)) (dtype : Option Dtype)
  | scalar (dtype : Option Dtype)
deriving DecidableEq, Repr

/-- The `is_array` attribute of a Value: fixed at creation. -/
def Value.is_array : Value → Bool
  | .array _ _ => true
  | .scalar _ => false

/-- The `dtype` attribute of a Value. -/
def Value.dtype : Value → Option Dtype
  | .array _ d => d
  | .scalar d => d

/-- The `size` attribute of an ArrayValue: product of the shape, when the
shape is resolved. -/
def Value.size : Value → Option Nat
  | .array (some sh) _ => some (sh.foldl (· * ·) 1)
  | _ => none

/-- A runtime argument witnessed at `prepare_for`/`__call__` time: either an
array (with shape and dtype) or a scalar (with dtype).  Only the properties
used by the core (shape, dtype, kind) are embedded. -/
inductive RtArg where
  | rarray (shape : List Nat) (dtype : Dtype)
  | rscalar (dtype : Dtype)
deriving DecidableEq, Repr

/-- Modelled from the spec: `wrap_value` from `reikna.core.transformation`
(not under src/) constructs a Value from a witnessed runtime array or scalar,
inferring shape and type (§4.1 "construct ... from a witnessed runtime
array/scalar (inferring shape/type)"). -/
def wrap_value : RtArg → Value
  | .rarray sh d => .array (some sh) (some d)
  | .rscalar d => .scalar (some d)

/-- Python exception taxonomy used by the core. -/
inductive PyErr where
  | invalidState (msg : String)
  | typeError (msg : String)
  | valueError (msg : String)
  | assertionError
deriving DecidableEq, Repr

/-- A basis entry: either a dtype-valued or a number-valued quantity
(possibly Python `None`). -/
inductive BVal where
  | dt (d : Option Dtype)
  | num (n : Option Nat)
deriving DecidableEq, Repr

/-- An `AttrDict` basis: a keyed record of computation-specific quantities. -/
abbrev BasisDict := List (String × BVal)

/-- Keyword arguments, threaded unmodified into `_get_basis_for`. -/
abbrev Kwds := List (String × BVal)

/-- First-match association-list lookup: the embedding of Python dict
lookup (an assignment conses a binding that shadows older ones). -/
def alookup {α : Type} : List (String × α) → String → Option α
  | [], _ => none
  | (k', v) :: rest, k => if k' = k then some v else alookup rest k

/-- The mutable `values` dict of `Computation._basis_for`. -/
abbrev VMap := List (String × Value)

/-- The loop of `Computation._basis_for` (computation.py lines 140-151):
wrap each provided argument into a mock Value (`None` becomes an unresolved
placeholder of the leaf's kind), raising `TypeError` at the first
array/scalar kind mismatch, naming the 1-based argument position. -/
def wrapLoop : List ((String × Value) × Option RtArg) → Nat → VMap →
    Except PyErr VMap
  | [], _, values => .ok values
  | ((name, value), arg) :: rest, i, values =>
    match arg with
    | none =>
      let new_value := if value.is_array then Value.array none none
                       else Value.scalar none
      wrapLoop rest (i + 1) ((name, new_value) :: values)
    | some a =>
      let new_value := wrap_value a
      if new_value.is_array ≠ value.is_array then
        .error (.typeError ("Incorrect type of argument " ++ toString (i + 1)))
      else
        wrapLoop rest (i + 1) ((name, new_value) :: values)

/-- The override loop of `Computation._basis_for` (computation.py lines
167-169): `for name, value in base_values.items(): if not value.is_array:
values[name] = value`. -/
def overrideScalars (values : VMap) (base_values : List (String × Value)) :
    VMap :=
  base_values.foldl
    (fun m p => if p.2.is_array then m else (p.1, p.2) :: m) values

/-- The interface a concrete computation (plus its transformation tree)
presents to the `Computation` base-class methods.  `propagate` is
`tr_tree.propagate_to_base` followed by `tr_tree.base_values()` (returning
the base Values in base parameter order); `leafSig` is
`tr_tree.leaf_signature()`; the rest are the overridable methods
`_get_basis_for`, `_get_argvalues` and the finalized result of
`_construct_operations`. -/
structure KernelSpec where
  argnames : List String
deriving DecidableEq, Repr

/-- The finalized contents of an `OperationRecorder`: named allocations
(temporary buffers, already given concrete storage handles), constant
allocations, and kernels in plan order. -/
structure Operations where
  allocations : List (String × Nat)
  constAllocations : List (String × Nat)
  kernels : List KernelSpec
deriving DecidableEq, Repr

structure CompModel where
  leafSig : List (String × Value)
  propagate : VMap → Except PyErr (List Value)
  getBasisFor : List Value → Kwds → Except PyErr BasisDict
  getArgvalues : BasisDict → List (String × Value)
  constructOps : BasisDict → Operations

/-- `Computation._basis_for` (computation.py lines 129-173): validate the
argument count, wrap the arguments, run pass 1 of propagation, compute the
tentative basis, override the scalar leaf Values with the authoritative base
Values, run pass 2, and recompute the basis. -/
def basis_for (C : CompModel) (args : List (Option RtArg)) (kwds : Kwds) :
    Except PyErr BasisDict :=
  let pairs := C.leafSig
  if args.length ≠ pairs.length then
    .error (.typeError ("Computation takes " ++ toString pairs.length ++
      " arguments (" ++ toString args.length ++ " given)"))
  else do
    let values ← wrapLoop (pairs.zip args) 0 []
    -- First pass
    let bv1 ← C.propagate values
    let basis ← C.getBasisFor bv1 kwds
    let base_values := C.getArgvalues basis
    let values2 := overrideScalars values base_values
    -- Second pass
    let bv2 ← C.propagate values2
    C.getBasisFor bv2 kwds

/-- `Computation._basis_needs_update` (computation.py lines 119-127): true
when some key of the new basis maps to a different value in the current
basis. -/
def basis_needs_update (basis new_basis : BasisDict) : Bool :=
  new_basis.any (fun p => alookup basis p.1 ≠ some p.2)

/-! ## Transformation tree (`reikna.core.transformation`, modelled from the spec)

The module is not under src/; the node structure and `connect`'s checks are
modelled from spec §3 (Node), §4.2 (`connect`) and the behaviour pinned by
`test_incorrect_connections` / `test_connection_to_base` in
`test/test_core/test_core.py`. -/

/-- Array/scalar kind of a node. -/
inductive Kind where
  | array
  | scalar
deriving DecidableEq, Repr

/-- Role of a node: output, input, or scalar parameter. -/
inductive Role where
  | output
  | input
  | param
deriving DecidableEq, Repr

/-- A transformation-tree vertex: kind, role, and whether it is currently a
leaf (externally visible) node. -/
structure Node where
  kind : Kind
  role : Role
  leaf : Bool
deriving DecidableEq, Repr

/-- The transformation tree: named nodes (association list with
first-match lookup). -/
structure TrTree where
  nodes : List (String × Node)
deriving DecidableEq, Repr

/-- A `Transformation` as constructed in the test suite: declared input,
output and scalar arities (the code snippet and derivation functions play no
part in connection validation). -/
structure Transformation where
  inputs : Nat
  outputs : Nat
  scalars : Nat
deriving DecidableEq, Repr

/-- Modelled from the spec: a well-formed new node name (spec §7 rejects
"malformed new node names"; the tests reject `1C_prime` and `1param`):
a Python identifier — a letter or underscore followed by letters, digits or
underscores. -/
def validName (s : String) : Bool :=
  match s.data with
  | [] => false
  | c :: rest =>
    (c.isAlpha || c = '_') && rest.all (fun c' => c'.isAlphanum || c' = '_')

/-- Modelled from the spec: `TransformationTree` constructed from the
prefixed argument-name triple (outputs, inputs, scalars); every base node
starts as its own leaf (spec §3 Node). -/
def baseTree (outputs inputs scalars : List String) : TrTree :=
  { nodes :=
      outputs.map (fun n => (n, ⟨Kind.array, Role.output, true⟩)) ++
      inputs.map (fun n => (n, ⟨Kind.array, Role.input, true⟩)) ++
      scalars.map (fun n => (n, ⟨Kind.scalar, Role.param, true⟩)) }

/-- Whether an existing node may be aliased by a new array name of the given
connection (spec §4.2: "connecting to an existing **input** or **scalar**
node is permitted and creates an alias"; new names of an output-side
connection may not alias anything). -/
def arrayAliasOk (atOutput : Bool) (nd : Node) : Bool :=
  !atOutput && nd.kind == Kind.array && nd.role == Role.input

/-- Adding the genuinely new leaf nodes of a connection: a name already
bound (an allowed alias) is left in place, a fresh name is bound to the
given node. -/
def addNewNodes (node : Node) (names : List String)
    (ns : List (String × Node)) : List (String × Node) :=
  names.foldl (fun ns' n =>
    if (alookup ns' n).isSome then ns' else (n, node) :: ns') ns

/-- Modelled from the spec: `TransformationTree.connect` (spec §4.2).
Sequential checks, then mutation: the target leaf becomes internal and the
genuinely new names become leaf nodes (an allowed alias leaves the existing
node in place). -/
def TrTree.connect (t : TrTree) (tr : Transformation) (array_arg : String)
    (new_array_args new_scalar_args : List String) :
    Except PyErr TrTree :=
  match alookup t.nodes array_arg with
  | none => .error (.valueError ("Unknown argument " ++ array_arg))
  | some nd =>
    if nd.leaf = false then
      .error (.valueError ("Argument " ++ array_arg ++ " is not a leaf"))
    else if nd.kind = Kind.scalar then
      .error (.valueError "Only array arguments can be connected to")
    else
      let atOutput : Bool := nd.role == Role.output
      if atOutput &&
          (tr.inputs != 1 || new_array_args.length != tr.outputs) then
        .error (.valueError "Wrong number of array arguments")
      else if !atOutput &&
          (tr.outputs != 1 || new_array_args.length != tr.inputs) then
        .error (.valueError "Wrong number of array arguments")
      else if new_scalar_args.length != tr.scalars then
        .error (.valueError "Wrong number of scalar arguments")
      else if (new_array_args ++ new_scalar_args).any
          (fun n => !validName n) then
        .error (.valueError "Incorrect argument name")
      else if new_array_args.any (fun n =>
          match alookup t.nodes n with
          | some nd' => !arrayAliasOk atOutput nd'
          | none => false) then
        .error (.valueError "Name already taken")
      else if new_scalar_args.any (fun n =>
          match alookup t.nodes n with
          | some nd' => !(nd'.kind == Kind.scalar)
          | none => false) then
        .error (.valueError "Name already taken")
      else
        let newRole := if atOutput then Role.output else Role.input
        let ns0 := (array_arg, { nd with leaf := false }) :: t.nodes
        let ns1 := addNewNodes ⟨Kind.array, newRole, true⟩ new_array_args ns0
        let ns2 := addNewNodes ⟨Kind.scalar, Role.param, true⟩
          new_scalar_args ns1
        .ok { nodes := ns2 }

/-! ## The Computation lifecycle state machine (computation.py) -/

/-- State constants of computation.py lines 16-21. -/
def STATE_NOT_INITIALIZED : Nat := 0
def STATE_INITIALIZED : Nat := 1
def STATE_PREPARED : Nat := 2

/-- An argument of a kernel launch at call time: a (possibly cast) runtime
argument, or a finalized buffer handle. -/
inductive CallArg where
  | run (a : RtArg)
  | buf (b : Nat)
deriving DecidableEq, Repr

/-- Modelled from the spec: `reikna.cluda.dtypes.cast` (not under src/) —
casting a runtime scalar to a given element type replaces its dtype; arrays
and unresolved dtypes pass through (§4.5 "casts each scalar argument to the
element type fixed by the Basis"). -/
def castTo (d : Option Dtype) (a : RtArg) : RtArg :=
  match a, d with
  | .rscalar _, some d' => .rscalar d'
  | _, _ => a

/-- The mutable state of a `Computation` instance. -/
structure CompState where
  debug : Bool
  pfx : String
  tree : TrTree
  state : Nat
  basis : Option BasisDict
  leafSigP : List (String × Value)
  arraysList : List Nat
  kernels : List (KernelSpec × List Nat)
deriving DecidableEq, Repr

/-- `Computation.connect` (computation.py lines 178-193): the state check,
then the tree-level connection. -/
def connectC (st : CompState) (tr : Transformation) (array_arg : String)
    (new_array_args new_scalar_args : List String) :
    CompState × Except PyErr Unit :=
  if st.state ≠ STATE_INITIALIZED then
    (st, .error (.invalidState
      "Cannot connect transformations after the computation has been prepared"))
  else
    match st.tree.connect tr array_arg new_array_args new_scalar_args with
    | .error e => (st, .error e)
    | .ok t => ({ st with tree := t }, .ok ())

/-- The per-argument cast list built in `prepare_for` (computation.py lines
226-227) applied at call time: the identity for arrays, `cast(value.dtype)`
for scalars. -/
def applyCasts (sig : List (String × Value)) (args : List RtArg) :
    List CallArg :=
  (sig.zip args).map (fun p =>
    if p.1.2.is_array then CallArg.run p.2
    else CallArg.run (castTo p.1.2.dtype p.2))

/-- `dict(allocations)` followed by `update(_const_allocations)`
(computation.py lines 213-214): later bindings shadow earlier ones, so the
const allocations are consed in front. -/
def mergedArrays (ops : Operations) : List (String × Nat) :=
  ops.constAllocations ++ ops.allocations

/-- Lexicographic code-point comparison of character lists (the order
Python's `sorted` uses on strings). -/
def charListLe : List Char → List Char → Bool
  | [], _ => true
  | _ :: _, [] => false
  | a :: as, b :: bs =>
    if a.toNat < b.toNat then true
    else if b.toNat < a.toNat then false
    else charListLe as bs

/-- Insertion of a string into a sorted list (structural insertion sort,
used to embed Python's `sorted`). -/
def insortStr (s : String) : List String → List String
  | [] => [s]
  | x :: xs => if charListLe s.data x.data then s :: x :: xs
               else x :: insortStr s xs

/-- `sorted(self._arrays.keys())` (computation.py line 218): the distinct
keys of the merged allocation dict, sorted (insertion sort). -/
def arrNamesOf (ops : Operations) : List String :=
  (((mergedArrays ops).map Prod.fst).dedup).foldr insortStr []

/-- Index of the first occurrence of an element in a list. -/
def idx {α : Type} [DecidableEq α] : List α → α → Option Nat
  | [], _ => none
  | x :: xs, y => if x = y then some 0 else (idx xs y).map (· + 1)

/-- `array_to_int` (computation.py lines 222-224): allocation names map to
`i + len(leaf_signature)` for their position `i` in the sorted allocation
name list, and leaf names (updated last, hence shadowing) map to their leaf
position. -/
def arrayToInt (sig : List (String × Value)) (arrNames : List String)
    (n : String) : Option Nat :=
  match idx (sig.map Prod.fst) n with
  | some i => some i
  | none => (idx arrNames n).map (· + sig.length)

/-- `Computation.prepare_for` (computation.py lines 195-234): state checks,
basis resolution, plan construction, and — for the outermost computation —
finalization: buffer list, cast list and kernel argument-index wiring. -/
def prepare_for (C : CompModel) (st : CompState) (args : List (Option RtArg))
    (kwds : Kwds) : CompState × Except PyErr Unit :=
  if st.state = STATE_NOT_INITIALIZED then
    (st, .error (.invalidState "Computation is not fully initialized"))
  else if st.state = STATE_PREPARED then
    (st, .error (.invalidState "Cannot prepare the same computation twice"))
  else
    match basis_for C args kwds with
    | .error e => (st, .error e)
    | .ok b =>
      let ops := C.constructOps b
      if st.pfx = "" then
        let arrays := mergedArrays ops
        let sig := C.leafSig
        let arrNames := arrNamesOf ops
        let arraysList := arrNames.map (fun n => (alookup arrays n).getD 0)
        let kernels := ops.kernels.map (fun k =>
          (k, k.argnames.map (fun n => (arrayToInt sig arrNames n).getD 0)))
        ({ st with
            state := STATE_PREPARED
            basis := some b
            leafSigP := sig
            arraysList := arraysList
            kernels := kernels },
         .ok ())
      else
        ({ st with
            state := STATE_PREPARED
            basis := some b }, .ok ())

/-- `Computation.__call__` (computation.py lines 253-279): state check,
debug-mode basis re-derivation, keyword rejection outside debug mode,
argument-count check, then the launches in plan order — each kernel applied
to the entries of the combined positional vector at its resolved indices.
The result lists the issued launches. -/
def callRun (C : CompModel) (st : CompState) (args : List RtArg)
    (kwds : Kwds) : CompState × Except PyErr (List (KernelSpec × List CallArg)) :=
  if st.state ≠ STATE_PREPARED then
    (st, .error (.invalidState
      "The computation must be fully prepared before execution"))
  else
    let checked : Except PyErr Unit :=
      if st.debug then
        match basis_for C (args.map some) kwds with
        | .error e => .error e
        | .ok new_basis =>
          if basis_needs_update (st.basis.getD []) new_basis then
            .error (.valueError "Given arguments require different basis")
          else .ok ()
      else
        if kwds.length > 0 then
          .error (.valueError "Keyword arguments should be passed to prepare_for()")
        else .ok ()
    match checked with
    | .error e => (st, .error e)
    | .ok _ =>
      if args.length ≠ st.leafSigP.length then
        (st, .error (.typeError ("Computation takes " ++
          toString st.leafSigP.length ++ " arguments (" ++
          toString args.length ++ " given)")))
      else
        let pos_args := applyCasts st.leafSigP args ++
          st.arraysList.map CallArg.buf
        (st, .ok (st.kernels.map (fun k =>
          (k.1, k.2.map (fun i => pos_args.getD i (.buf 0))))))

/-! ## Nested-computation namespace prefixes
(`Computation.get_nested_computation`, computation.py lines 102-109).
Strings are embedded as `List Char`; Python's `str(n)` on the counter is the
usual big-endian decimal rendering, embedded as `natDecimal`. -/

/-- The decimal digit character for `d < 10`. -/
def digitChar (d : Nat) : Char := Char.ofNat (48 + d)

/-- Big-endian decimal digit string of a natural number (the embedding of
Python's `str(n)` for `n : Nat`). -/
def natDecimal (n : Nat) : List Char :=
  if _h : n < 10 then [digitChar n]
  else natDecimal (n / 10) ++ [digitChar (n % 10)]
decreasing_by
  exact Nat.div_lt_self (by omega) (by omega)

/-- The prefix string built at computation.py line 107:
`self._prefix + cls.__name__[0] + str(self._nested_counter) + '_'`. -/
def nestedPfx (parentPfx : List Char) (clsHead : Char) (counter : Nat) :
    List Char :=
  parentPfx ++ [clsHead] ++ natDecimal counter ++ ['_']

/-- The prefix-relevant state of a parent computation: its own prefix and
its `_nested_counter` (initialized to 1 in `Computation.__init__`). -/
structure ParentState where
  pfx : List Char
  nestedCounter : Nat
deriving DecidableEq, Repr

/-- `Computation.get_nested_computation` (computation.py lines 102-109),
restricted to the prefix bookkeeping: returns the prefix handed to the
nested computation and the updated parent state. -/
def get_nested_computation (st : ParentState) (clsHead : Char) :
    List Char × ParentState :=
  (nestedPfx st.pfx clsHead st.nestedCounter,
   { st with nestedCounter := st.nestedCounter + 1 })

/-- The sequence of prefixes assigned by successive
`get_nested_computation` calls with the given class-name head characters. -/
def nestedPfxList (st : ParentState) : List Char → List (List Char)
  | [] => []
  | c :: cs =>
    let r := get_nested_computation st c
    r.1 :: nestedPfxList r.2 cs

/-! ## `Reduce._build_plan` (reikna/reduce.py lines 94-158) -/

/-- Modelled from the spec: `helpers.min_blocks` (helpers module not under
src/) — the number of blocks of size `block` needed to cover `length`,
i.e. ceiling division (its use at test_core.py line 70 as
`min_blocks(size, block_size) * block_size` for the global size pins this
meaning). -/
def min_blocks (length block : Nat) : Nat := (length + block - 1) / block

/-- Modelled from the spec: `helpers.product` (helpers module not under
src/) — the product of a list of sizes. -/
def product (xs : List Nat) : Nat := xs.foldl (· * ·) 1

/-- One iteration of the `while part_size > 1` loop of `Reduce._build_plan`
(reduce.py lines 119-156), restricted to the evolution of `part_size`:
when `part_size >= max_work_group_size` the next value is
`min_blocks(part_size, max_work_group_size)`; otherwise `blocks_per_part`
is 1 and the final output is written. -/
def reduceStep (maxWG part_size : Nat) : Nat :=
  if part_size ≥ maxWG then min_blocks part_size maxWG else 1

/-- The `while part_size > 1` loop of `Reduce._build_plan`, run with
explicit fuel: returns the final `part_size` together with the number of
kernel launches issued, or `none` if the fuel is exhausted with the loop
still running. -/
def reduceLoop (maxWG : Nat) : Nat → Nat → Option (Nat × Nat)
  | _, 0 => none
  | part_size, fuel + 1 =>
    if part_size > 1 then
      match reduceLoop maxWG (reduceStep maxWG part_size) fuel with
      | some (final, k) => some (final, k + 1)
      | none => none
    else
      some (part_size, 0)

/-- The part of `Reduce.__init__` (reduce.py lines 56-92) that determines
the loop's initial `part_size`: axes normalization and validation, the
remaining axes, the optional transpose, and the initial shape seen by
`_build_plan`.  Returns the initial `part_size` of the loop
(`helpers.product(cur_input.shape[axis_start:])`, reduce.py line 116). -/
def reduceInitPartSize (shape : List Nat) (axesIn : Option (List Nat)) :
    Except PyErr Nat :=
  let dims := shape.length
  let axes := match axesIn with
    | none => List.range dims
    | some a => a.mergeSort (· ≤ ·)
  if axes.dedup.length ≠ axes.length then
    .error (.valueError "Cannot reduce twice over the same axis")
  else if axes.foldr min dims < 0 ∨ axes.foldr max 0 ≥ dims ∨ axes = [] then
    .error (.valueError "Axes numbers are out of bounds")
  else
    let remaining_axes := (List.range dims).filter (fun a => a ∉ axes)
    let axis_start := remaining_axes.length
    let cur_shape :=
      if axes = List.range' (dims - axes.length) (axes.length) then
        shape
      else
        remaining_axes.map (fun a => shape.getD a 0) ++
          axes.map (fun a => shape.getD a 0)
    .ok (product (cur_shape.drop axis_start))

/-! ## The Dummy computation of the test suite
(`test/test_core/test_core.py` lines 14-81), with no transformations
connected: the concrete `CompModel` instance used as a witness. -/

/-- Dummy's argument names: outputs `(C, D)`, inputs `(A, B)`, scalars
`(coeff,)` (test_core.py lines 20-21); the leaf signature of the fresh tree
lists them in base order with unresolved Values. -/
def dummyLeafSig : List (String × Value) :=
  [("C", .array none none), ("D", .array none none),
   ("A", .array none none), ("B", .array none none),
   ("coeff", .scalar none)]

/-- Modelled from the spec: `propagate_to_base` followed by `base_values()`
for a tree with no connections — every base node is its own leaf, so the
base Values are the leaf Values in base order (spec §4.2). -/
def trivialPropagate : List String → VMap → Except PyErr (List Value)
  | [], _ => .ok []
  | n :: rest, m =>
    match alookup m n with
    | none => .error (.typeError ("Missing value for " ++ n))
    | some v =>
      match trivialPropagate rest m with
      | .ok vs => .ok (v :: vs)
      | .error e => .error e

/-- `Dummy._get_basis_for` (test_core.py lines 23-25): asserts that the four
array dtypes agree, then returns
`dict(arr_dtype=C.dtype, coeff_dtype=coeff.dtype, size=C.size)`. -/
def dummyGetBasisFor (vals : List Value) (_kwds : Kwds) :
    Except PyErr BasisDict :=
  match vals with
  | [c, d, a, b, coeff] =>
    if c.dtype = d.dtype ∧ d.dtype = a.dtype ∧ a.dtype = b.dtype then
      .ok [("arr_dtype", .dt c.dtype), ("coeff_dtype", .dt coeff.dtype),
           ("size", .num c.size)]
    else .error .assertionError
  | _ => .error (.typeError "Wrong number of base values")

/-- `Dummy._get_argvalues` (test_core.py lines 27-30):
`av = ArrayValue((basis.size,), basis.arr_dtype)`,
`sv = ScalarValue(basis.coeff_dtype)`, assigned to the five base names. -/
def dummyGetArgvalues (basis : BasisDict) : List (String × Value) :=
  let ad := match alookup basis "arr_dtype" with
    | some (.dt d) => d
    | _ => none
  let cd := match alookup basis "coeff_dtype" with
    | some (.dt d) => d
    | _ => none
  let sz := match alookup basis "size" with
    | some (.num n) => n
    | _ => none
  let av := Value.array (sz.map (fun n => [n])) ad
  [("C", av), ("D", av), ("A", av), ("B", av), ("coeff", Value.scalar cd)]

/-- `Dummy._construct_operations` (test_core.py lines 32-81), reduced to its
finalized contents: two temporary allocations and two kernels with their
argument names. -/
def dummyConstructOps (_basis : BasisDict) : Operations :=
  { allocations := [("_c_temp", 100), ("_d_temp", 101)]
    constAllocations := []
    kernels := [⟨["_c_temp", "_d_temp", "A", "B", "coeff"]⟩,
                ⟨["C", "D", "_c_temp", "_d_temp"]⟩] }

/-- The `CompModel` of a fresh `Dummy` computation with no transformations
connected. -/
def dummyModel : CompModel :=
  { leafSig := dummyLeafSig
    propagate := trivialPropagate ["C", "D", "A", "B", "coeff"]
    getBasisFor := dummyGetBasisFor
    getArgvalues := dummyGetArgvalues
    constructOps := dummyConstructOps }

/-- A fresh (initialized, unprepared) `Dummy` instance's state. -/
def dummyInitState (debug : Bool) : CompState :=
  { debug := debug
    pfx := ""
    tree := baseTree ["C", "D"] ["A", "B"] ["coeff"]
    state := STATE_INITIALIZED
    basis := none
    leafSigP := []
    arraysList := []
    kernels := [] }

/-! ## Utility lemmas -/

theorem alookup_append {α : Type} (xs ys : List (String × α)) (k : String) :
    alookup (xs ++ ys) k =
      (match alookup xs k with
       | some v => some v
       | none => alookup ys k) := by
  induction xs with
  | nil => rfl
  | cons p rest ih =>
    simp only [List.cons_append, alookup]
    by_cases h : p.1 = k
    · simp [h]
    · simp [h, ih]

theorem alookup_mem {α : Type} {l : List (String × α)} {k : String} {v : α}
    (h : alookup l k = some v) : (k, v) ∈ l := by
  induction l with
  | nil => simp [alookup] at h
  | cons p rest ih =>
    simp only [alookup] at h
    by_cases hp : p.1 = k
    · rw [if_pos hp] at h
      have hv : p.2 = v := Option.some.inj h
      cases p
      simp_all
    · rw [if_neg hp] at h
      exact List.mem_cons_of_mem _ (ih h)

theorem idx_get {α : Type} [DecidableEq α] {l : List α} {y : α} {i : Nat}
    (h : idx l y = some i) : ∃ hi : i < l.length, l.get ⟨i, hi⟩ = y := by
  induction l generalizing i with
  | nil => simp [idx] at h
  | cons x xs ih =>
    simp only [idx] at h
    by_cases hx : x = y
    · rw [if_pos hx] at h
      have h0 : 0 = i := Option.some.inj h
      subst h0
      exact ⟨by simp, by simp [hx]⟩
    · rw [if_neg hx] at h
      rw [Option.map_eq_some'] at h
      obtain ⟨j, hj, rfl⟩ := h
      obtain ⟨hlt, hget⟩ := ih hj
      exact ⟨by simpa using Nat.succ_lt_succ hlt, by simpa using hget⟩

theorem idx_isSome_of_mem {α : Type} [DecidableEq α] {l : List α} {y : α}
    (h : y ∈ l) : (idx l y).isSome := by
  induction l with
  | nil => simp at h
  | cons x xs ih =>
    simp only [idx]
    by_cases hx : x = y
    · simp [hx]
    · rcases List.mem_cons.mp h with h' | h'
      · exact absurd h'.symm hx
      · simp only [if_neg hx]
        rcases Option.isSome_iff_exists.mp (ih h') with ⟨j, hj⟩
        simp [hj]

/-! ## C5: lifecycle violations raise `InvalidStateError` and leave the
state unchanged -/

/-- **C5.** For every computation instance, each lifecycle violation —
connecting a transformation after the computation has been prepared, calling
`prepare_for` a second time on the same instance, and invoking `__call__`
before preparation has succeeded — raises an invalid-state error
(`InvalidStateError`) and leaves the instance's state unchanged: the
returned state is the input state and the result is `PyErr.invalidState`. -/
theorem claim_C5 (C : CompModel) (st : CompState) (tr : Transformation)
    (target : String) (newA newS : List String)
    (pargs : List (Option RtArg)) (cargs : List RtArg) (kwds : Kwds) :
    (st.state = STATE_PREPARED →
      connectC st tr target newA newS =
        (st, .error (.invalidState
          "Cannot connect transformations after the computation has been prepared")) ∧
      prepare_for C st pargs kwds =
        (st, .error (.invalidState "Cannot prepare the same computation twice"))) ∧
    (st.state ≠ STATE_PREPARED →
      callRun C st cargs kwds =
        (st, .error (.invalidState
          "The computation must be fully prepared before execution"))) := by
  constructor
  · intro h
    constructor
    · simp [connectC, h, STATE_PREPARED, STATE_INITIALIZED]
    · simp [prepare_for, h, STATE_PREPARED, STATE_NOT_INITIALIZED]
  · intro h
    simp [callRun, h]

/-- Witness for C5 at the concrete `Dummy` computation: a prepared instance
rejects `connect` and a second `prepare_for`, and an unprepared instance
rejects `__call__`. -/
theorem claim_C5_witness :
    (connectC { dummyInitState false with state := STATE_PREPARED }
        ⟨1, 1, 0⟩ "A" ["A_prime"] [] =
      ({ dummyInitState false with state := STATE_PREPARED },
       .error (.invalidState
         "Cannot connect transformations after the computation has been prepared")) ∧
     prepare_for dummyModel { dummyInitState false with state := STATE_PREPARED }
        [] [] =
      ({ dummyInitState false with state := STATE_PREPARED },
       .error (.invalidState "Cannot prepare the same computation twice"))) ∧
    callRun dummyModel (dummyInitState false) [] [] =
      (dummyInitState false,
       .error (.invalidState
         "The computation must be fully prepared before execution")) := by
  refine ⟨(claim_C5 dummyModel _ ⟨1, 1, 0⟩ "A" ["A_prime"] [] [] [] []).1 rfl,
    (claim_C5 dummyModel (dummyInitState false) ⟨1, 1, 0⟩ "A" ["A_prime"] []
      [] [] []).2 (by decide)⟩

/-! ## C10: keyword arguments on a non-debug call -/

/-- **C10.** On a prepared computation with `debug = False`, `__call__`
raises a `ValueError` whenever any keyword argument is supplied — the
theorem quantifies over argument lists of every length (in particular
lengths failing the argument-count check), and the error result carries no
launches, so the rejection happens before the argument-count check and
before any kernel is launched; keyword options are thereby accepted only by
`prepare_for`. -/
theorem claim_C10 (C : CompModel) (st : CompState) (args : List RtArg)
    (kwds : Kwds) (hst : st.state = STATE_PREPARED) (hdbg : st.debug = false)
    (hk : kwds ≠ []) :
    callRun C st args kwds =
      (st, .error (.valueError
        "Keyword arguments should be passed to prepare_for()")) := by
  have hk' : kwds.length > 0 := by
    cases kwds with
    | nil => exact absurd rfl hk
    | cons a l => simp
  simp [callRun, hst, hdbg, hk']

/-- Witness for C10: a prepared non-debug `Dummy` state called with a
keyword argument and an argument list of the wrong length (0 ≠ 5). -/
theorem claim_C10_witness :
    callRun dummyModel { dummyInitState false with state := STATE_PREPARED }
        [] [("size", .num (some 1))] =
      ({ dummyInitState false with state := STATE_PREPARED },
       .error (.valueError
         "Keyword arguments should be passed to prepare_for()")) :=
  claim_C10 dummyModel _ [] [("size", .num (some 1))] rfl rfl (by decide)

/-! ## C6: debug-mode basis re-derivation on every call -/

/-- **C6.** When a computation constructed with `debug=True` has been
prepared, every `__call__` re-derives the Basis from the actual call
arguments (`basis_for` on the call arguments) and raises a `ValueError`
before any kernel is launched — the error result carries no launch list —
whenever the re-derived Basis differs in some key from the Basis fixed at
preparation; `basis_needs_update` holds exactly when some key of the
re-derived Basis has a differing value. -/
theorem claim_C6 (C : CompModel) (st : CompState) (args : List RtArg)
    (kwds : Kwds) (b nb : BasisDict)
    (hst : st.state = STATE_PREPARED) (hdbg : st.debug = true)
    (hb : st.basis = some b)
    (hnb : basis_for C (args.map some) kwds = .ok nb)
    (hdiff : basis_needs_update b nb = true) :
    callRun C st args kwds =
      (st, .error (.valueError "Given arguments require different basis")) ∧
    (basis_needs_update b nb = true ↔ ∃ p ∈ nb, alookup b p.1 ≠ some p.2) := by
  constructor
  · simp [callRun, hst, hdbg, hb, hnb, hdiff]
  · simp [basis_needs_update, List.any_eq_true]

/-- Witness for C6: a debug `Dummy` prepared for size-4 complex arrays and
called with size-2 arrays is rejected with the basis-mismatch
`ValueError`. -/
theorem claim_C6_witness :
    callRun dummyModel
        { dummyInitState true with
            state := STATE_PREPARED
            basis := some [("arr_dtype", .dt (some 7)),
                           ("coeff_dtype", .dt (some 3)),
                           ("size", .num (some 4))]
            leafSigP := dummyLeafSig }
        [.rarray [2] 7, .rarray [2] 7, .rarray [2] 7, .rarray [2] 7,
         .rscalar 3] [] =
      ({ dummyInitState true with
            state := STATE_PREPARED
            basis := some [("arr_dtype", .dt (some 7)),
                           ("coeff_dtype", .dt (some 3)),
                           ("size", .num (some 4))]
            leafSigP := dummyLeafSig },
       .error (.valueError "Given arguments require different basis")) :=
  (claim_C6 dummyModel _ _ []
    [("arr_dtype", .dt (some 7)), ("coeff_dtype", .dt (some 3)),
     ("size", .num (some 4))]
    [("arr_dtype", .dt (some 7)), ("coeff_dtype", .dt (some 3)),
     ("size", .num (some 2))]
    rfl rfl rfl (by decide) (by decide)).1

/-! ## C7: nested-computation prefixes are distinct -/

theorem digitChar_toNat {d : Nat} (h : d < 10) : (digitChar d).toNat = 48 + d := by
  interval_cases d <;> decide

/-- Decimal decoding, inverse to `natDecimal`. -/
def decDigits (l : List Char) : Nat :=
  l.foldl (fun acc c => acc * 10 + (c.toNat - 48)) 0

theorem decDigits_natDecimal (n : Nat) : decDigits (natDecimal n) = n := by
  induction n using Nat.strong_induction_on with
  | _ n ih =>
    rw [natDecimal]
    split
    · next h =>
      simp [decDigits, digitChar_toNat h]
    · next h =>
      have hd : n / 10 < n := Nat.div_lt_self (by omega) (by omega)
      have ihd := ih (n / 10) hd
      simp only [decDigits, List.foldl_append] at ihd ⊢
      rw [ihd, List.foldl_cons, List.foldl_nil,
        digitChar_toNat (Nat.mod_lt _ (by omega))]
      omega

theorem natDecimal_inj {a b : Nat} (h : natDecimal a = natDecimal b) :
    a = b := by
  have ha := decDigits_natDecimal a
  rw [h, decDigits_natDecimal b] at ha
  omega

theorem nestedPfx_inj {p : List Char} {c1 c2 : Char} {n1 n2 : Nat}
    (h : nestedPfx p c1 n1 = nestedPfx p c2 n2) : c1 = c2 ∧ n1 = n2 := by
  unfold nestedPfx at h
  simp only [List.append_assoc] at h
  have h1 := List.append_cancel_left h
  simp only [List.singleton_append, List.cons.injEq] at h1
  obtain ⟨hc, hd⟩ := h1
  exact ⟨hc, natDecimal_inj (List.append_cancel_right hd)⟩

theorem nestedPfxList_length (st : ParentState) (heads : List Char) :
    (nestedPfxList st heads).length = heads.length := by
  induction heads generalizing st with
  | nil => rfl
  | cons c cs ih => simp [nestedPfxList, ih]

theorem nestedPfxList_getD (st : ParentState) (heads : List Char) (i : Nat)
    (hi : i < heads.length) :
    (nestedPfxList st heads).getD i [] =
      nestedPfx st.pfx (heads.getD i 'X') (st.nestedCounter + i) := by
  induction heads generalizing st i with
  | nil => simp at hi
  | cons c cs ih =>
    cases i with
    | zero => rfl
    | succ j =>
      have hj : j < cs.length := by simpa using hi
      simp only [nestedPfxList, get_nested_computation, List.getD_cons_succ]
      rw [ih _ j hj]
      simp only [List.getD_cons_succ]
      congr 1
      omega

/-- **C7.** The namespace prefixes assigned by `get_nested_computation` to
any two nested computations created under one parent — in particular to two
nested instances of the same type — are distinct strings; each is derived
from the nested type's identity (the head character of the class name) plus
the per-parent counter, which is monotonically increasing: the `i`-th
creation uses counter value `nestedCounter + i`. -/
theorem claim_C7 (st : ParentState) (heads : List Char) (i j : Nat)
    (hi : i < heads.length) (hj : j < heads.length) (hij : i ≠ j) :
    (nestedPfxList st heads).getD i [] =
      nestedPfx st.pfx (heads.getD i 'X') (st.nestedCounter + i) ∧
    (nestedPfxList st heads).getD j [] =
      nestedPfx st.pfx (heads.getD j 'X') (st.nestedCounter + j) ∧
    (nestedPfxList st heads).getD i [] ≠ (nestedPfxList st heads).getD j [] := by
  refine ⟨nestedPfxList_getD st heads i hi, nestedPfxList_getD st heads j hj, ?_⟩
  rw [nestedPfxList_getD st heads i hi, nestedPfxList_getD st heads j hj]
  intro h
  have := (nestedPfx_inj h).2
  omega

/-- Witness for C7: a parent with empty prefix creating two nested `Dummy`
computations (class head `D`, counters 1 and 2) assigns the distinct
prefixes `D1_` and `D2_`. -/
theorem claim_C7_witness :
    (nestedPfxList ⟨[], 1⟩ ['D', 'D']).getD 0 [] =
      nestedPfx [] 'D' 1 ∧
    (nestedPfxList ⟨[], 1⟩ ['D', 'D']).getD 1 [] =
      nestedPfx [] 'D' 2 ∧
    (nestedPfxList ⟨[], 1⟩ ['D', 'D']).getD 0 [] ≠
      (nestedPfxList ⟨[], 1⟩ ['D', 'D']).getD 1 [] :=
  claim_C7 ⟨[], 1⟩ ['D', 'D'] 0 1 (by decide) (by decide) (by decide)

/-! ## C9: the reduction loop terminates -/

theorem reduceStep_lt {m p : Nat} (hm : 2 ≤ m) (hp : 1 < p) :
    reduceStep m p < p := by
  unfold reduceStep
  split
  · next h =>
    unfold min_blocks
    rw [Nat.div_lt_iff_lt_mul (by omega)]
    have h2 : p + m ≤ 2 * p := by omega
    have h3 : 2 * p ≤ m * p := Nat.mul_le_mul_right p hm
    calc p + m - 1 < p + m := by omega
    _ ≤ 2 * p := h2
    _ ≤ m * p := h3
    _ = p * m := Nat.mul_comm m p
  · omega

theorem reduceLoop_mono {m : Nat} : ∀ {f1 f2 p : Nat} {r : Nat × Nat},
    f1 ≤ f2 → reduceLoop m p f1 = some r → reduceLoop m p f2 = some r := by
  intro f1
  induction f1 with
  | zero => intro f2 p r _ hr; simp [reduceLoop] at hr
  | succ f ih =>
    intro f2 p r hle hr
    cases f2 with
    | zero => omega
    | succ f2' =>
      simp only [reduceLoop] at hr ⊢
      by_cases hp : p > 1
      · rw [if_pos hp] at hr ⊢
        cases hrec : reduceLoop m (reduceStep m p) f with
        | none => rw [hrec] at hr; exact absurd hr (by simp)
        | some x =>
          rw [hrec] at hr
          rw [ih (by omega) hrec]
          exact hr
      · rw [if_neg hp] at hr ⊢
        exact hr

theorem reduceLoop_term {m : Nat} (hm : 2 ≤ m) (p : Nat) :
    ∃ r k, reduceLoop m p (p + 1) = some (r, k) ∧ r ≤ 1 := by
  induction p using Nat.strong_induction_on with
  | _ p ih =>
    by_cases hp : 1 < p
    · have hlt := reduceStep_lt hm hp
      obtain ⟨r, k, hr, hr1⟩ := ih (reduceStep m p) hlt
      have hmono : reduceLoop m (reduceStep m p) p = some (r, k) :=
        reduceLoop_mono (by omega) hr
      refine ⟨r, k + 1, ?_, hr1⟩
      simp only [reduceLoop]
      rw [if_pos hp, hmono]
    · refine ⟨p, 0, ?_, by omega⟩
      simp only [reduceLoop]
      rw [if_neg hp]

/-- **C9.** For every input array shape and axes accepted by
`Reduce.__init__`, and every `device_params` with
`max_work_group_size >= 2`, the `while part_size > 1` loop of
`Reduce._build_plan` terminates: running it with fuel `part_size + 1`
already completes (reaching a final `part_size ≤ 1` after finitely many
kernel launches), because each iteration either replaces `part_size` by
`min_blocks(part_size, max_work_group_size)` (ceiling division, strictly
smaller while `part_size > 1`) or by 1 (the iteration that writes the final
output). -/
theorem claim_C9 (shape : List Nat) (axesIn : Option (List Nat)) (m p : Nat)
    (hm : 2 ≤ m) (_hinit : reduceInitPartSize shape axesIn = .ok p) :
    (∃ r k, reduceLoop m p (p + 1) = some (r, k) ∧ r ≤ 1) ∧
    (∀ q, 1 < q →
      (m ≤ q → reduceStep m q = min_blocks q m ∧ reduceStep m q < q) ∧
      (q < m → reduceStep m q = 1)) := by
  refine ⟨reduceLoop_term hm p, ?_⟩
  intro q hq
  constructor
  · intro hmq
    refine ⟨?_, reduceStep_lt hm hq⟩
    unfold reduceStep
    rw [if_pos hmq]
  · intro hqm
    unfold reduceStep
    rw [if_neg (by omega)]

/-- Witness for C9: a `(8, 4)`-shaped input reduced over all axes with
`max_work_group_size = 2` gives initial `part_size = 32`, and the loop
terminates. -/
theorem claim_C9_witness :
    2 ≤ 2 ∧ reduceInitPartSize [8, 4] none = .ok 32 ∧
    ((∃ r k, reduceLoop 2 32 (32 + 1) = some (r, k) ∧ r ≤ 1) ∧
     (∀ q, 1 < q →
       (2 ≤ q → reduceStep 2 q = min_blocks q 2 ∧ reduceStep 2 q < q) ∧
       (q < 2 → reduceStep 2 q = 1))) :=
  ⟨by decide, by decide,
   claim_C9 [8, 4] none 2 32 (by decide) (by decide)⟩

/-! ## C8: wrapping of call arguments in `_basis_for` -/

/-- The Value actually stored for one entry of the wrap loop: a placeholder
of the leaf's kind for `None`, the wrapped runtime value otherwise. -/
def wrapEntry (p : (String × Value) × Option RtArg) : Value :=
  match p.2 with
  | none => if p.1.2.is_array then Value.array none none else Value.scalar none
  | some a => wrap_value a

/-- Whether one entry of the wrap loop passes the kind check. -/
def kindOk (p : (String × Value) × Option RtArg) : Bool :=
  match p.2 with
  | none => true
  | some a => (wrap_value a).is_array == p.1.2.is_array

theorem wrapLoop_ok_lookup :
    ∀ {l : List ((String × Value) × Option RtArg)} {k0 : Nat} {m0 m : VMap},
    wrapLoop l k0 m0 = .ok m → ∀ {name : String},
    (∀ p ∈ l, p.1.1 ≠ name) → alookup m name = alookup m0 name := by
  intro l
  induction l with
  | nil =>
    intro k0 m0 m h name _
    simp only [wrapLoop] at h
    cases h
    rfl
  | cons p rest ih =>
    intro k0 m0 m h name hn
    obtain ⟨⟨n, v⟩, a⟩ := p
    have hne : n ≠ name := hn _ (List.mem_cons_self _ _)
    have hrest : ∀ q ∈ rest, q.1.1 ≠ name :=
      fun q hq => hn q (List.mem_cons_of_mem _ hq)
    cases a with
    | none =>
      simp only [wrapLoop] at h
      rw [ih h hrest]
      simp [alookup, hne]
    | some r =>
      simp only [wrapLoop] at h
      by_cases hk : (wrap_value r).is_array ≠ v.is_array
      · rw [if_pos hk] at h
        cases h
      · rw [if_neg hk] at h
        rw [ih h hrest]
        simp [alookup, hne]

theorem wrapLoop_ok_get :
    ∀ {l : List ((String × Value) × Option RtArg)} {k0 : Nat} {m0 m : VMap},
    (l.map (fun p => p.1.1)).Nodup → wrapLoop l k0 m0 = .ok m →
    ∀ i (hi : i < l.length),
      alookup m (l.get ⟨i, hi⟩).1.1 = some (wrapEntry (l.get ⟨i, hi⟩)) ∧
      kindOk (l.get ⟨i, hi⟩) = true := by
  intro l
  induction l with
  | nil => intro k0 m0 m _ _ i hi; simp at hi
  | cons p rest ih =>
    intro k0 m0 m hnd h i hi
    obtain ⟨⟨n, v⟩, a⟩ := p
    have hnd' : (rest.map (fun p => p.1.1)).Nodup := (List.nodup_cons.mp hnd).2
    have hnotin : n ∉ rest.map (fun p => p.1.1) := (List.nodup_cons.mp hnd).1
    have hrest : ∀ q ∈ rest, q.1.1 ≠ n := by
      intro q hq hqe
      exact hnotin (hqe ▸ List.mem_map_of_mem _ hq)
    cases a with
    | none =>
      simp only [wrapLoop] at h
      cases i with
      | zero =>
        refine ⟨?_, rfl⟩
        show alookup m n = some (wrapEntry ((n, v), none))
        rw [wrapLoop_ok_lookup h hrest]
        simp [alookup, wrapEntry]
      | succ j =>
        have hj : j < rest.length := by simpa using hi
        exact ih hnd' h j hj
    | some r =>
      simp only [wrapLoop] at h
      by_cases hk : (wrap_value r).is_array ≠ v.is_array
      · rw [if_pos hk] at h
        cases h
      · rw [if_neg hk] at h
        cases i with
        | zero =>
          refine ⟨?_, by simpa [kindOk] using not_ne_iff.mp hk⟩
          show alookup m n = some (wrapEntry ((n, v), some r))
          rw [wrapLoop_ok_lookup h hrest]
          simp [alookup, wrapEntry]
        | succ j =>
          have hj : j < rest.length := by simpa using hi
          exact ih hnd' h j hj

theorem wrapLoop_err :
    ∀ {l : List ((String × Value) × Option RtArg)} {k0 : Nat} {m0 : VMap}
      {i : Nat} (hi : i < l.length) {a : RtArg},
    (l.get ⟨i, hi⟩).2 = some a →
    (wrap_value a).is_array ≠ (l.get ⟨i, hi⟩).1.2.is_array →
    (∀ j (hj : j < l.length), j < i → kindOk (l.get ⟨j, hj⟩) = true) →
    wrapLoop l k0 m0 = .error (.typeError
      ("Incorrect type of argument " ++ toString (k0 + i + 1))) := by
  intro l
  induction l with
  | nil => intro k0 m0 i hi; simp at hi
  | cons p rest ih =>
    intro k0 m0 i hi a ha hak hprev
    obtain ⟨⟨n, v⟩, a0⟩ := p
    cases i with
    | zero =>
      have ha0 : a0 = some a := ha
      subst ha0
      have hak' : (wrap_value a).is_array ≠ v.is_array := hak
      have hz : k0 + 0 + 1 = k0 + 1 := by omega
      rw [hz]
      simp only [wrapLoop]
      rw [if_pos hak']
    | succ j =>
      have hj : j < rest.length := by simpa using hi
      have hok0 : kindOk ((n, v), a0) = true :=
        hprev 0 (by simp) (Nat.succ_pos j)
      have hprev' : ∀ j' (hj' : j' < rest.length), j' < j →
          kindOk (rest.get ⟨j', hj'⟩) = true := by
        intro j' hj' hlt
        exact hprev (j' + 1) (by simpa using Nat.succ_lt_succ hj')
          (Nat.succ_lt_succ hlt)
      have harith : k0 + (j + 1) + 1 = (k0 + 1) + j + 1 := by omega
      rw [harith]
      cases a0 with
      | none =>
        simp only [wrapLoop]
        exact ih hj ha hak hprev'
      | some r =>
        have hk : ¬ (wrap_value r).is_array ≠ v.is_array := by
          simpa [kindOk] using hok0
        simp only [wrapLoop]
        rw [if_neg hk]
        exact ih hj ha hak hprev'

/-- **C8.** When wrapping call arguments during basis derivation (the wrap
loop of `_basis_for`, reached both from `prepare_for` and from debug-mode
calls): an argument equal to `None` yields an unresolved placeholder Value
of the same array/scalar kind as the corresponding leaf, and a non-`None`
argument whose wrapped kind differs from the leaf's kind — the first such
position — raises a `TypeError` identifying the 1-based argument
position. -/
theorem claim_C8 (pairs : List (String × Value)) (args : List (Option RtArg))
    (hnd : (pairs.map Prod.fst).Nodup) (hlen : args.length = pairs.length) :
    (∀ m, wrapLoop (pairs.zip args) 0 [] = .ok m →
      ∀ i (hi : i < (pairs.zip args).length),
        ((pairs.zip args).get ⟨i, hi⟩).2 = none →
        alookup m ((pairs.zip args).get ⟨i, hi⟩).1.1 =
          some (if ((pairs.zip args).get ⟨i, hi⟩).1.2.is_array then
            Value.array none none else Value.scalar none)) ∧
    (∀ i (hi : i < (pairs.zip args).length) (a : RtArg),
      ((pairs.zip args).get ⟨i, hi⟩).2 = some a →
      (wrap_value a).is_array ≠ ((pairs.zip args).get ⟨i, hi⟩).1.2.is_array →
      (∀ j (hj : j < (pairs.zip args).length), j < i →
        kindOk ((pairs.zip args).get ⟨j, hj⟩) = true) →
      wrapLoop (pairs.zip args) 0 [] = .error (.typeError
        ("Incorrect type of argument " ++ toString (i + 1)))) := by
  have hmap : (pairs.zip args).map (fun p => p.1.1) = pairs.map Prod.fst := by
    have h1 : (pairs.zip args).map Prod.fst = pairs :=
      List.map_fst_zip pairs args (le_of_eq hlen.symm)
    calc (pairs.zip args).map (fun p => p.1.1)
        = ((pairs.zip args).map Prod.fst).map Prod.fst := by
          rw [List.map_map]; rfl
    _ = pairs.map Prod.fst := by rw [h1]
  constructor
  · intro m hm i hi hnone
    have := (wrapLoop_ok_get (hmap ▸ hnd) hm i hi).1
    rw [this]
    unfold wrapEntry
    rw [hnone]
  · intro i hi a ha hak hprev
    have := @wrapLoop_err (pairs.zip args) 0 [] i hi a ha hak hprev
    simpa using this

/-- Witness for C8 at the `Dummy` leaf signature: a `None` in place of the
array `D` wraps to the unresolved array placeholder, and a scalar passed in
place of the array `B` (position 4) raises
`TypeError "Incorrect type of argument 4"` — the behaviour pinned by
`test_scalar_instead_of_array`. -/
theorem claim_C8_witness :
    (wrapLoop (dummyLeafSig.zip
        [some (.rarray [4] 7), none, some (.rarray [4] 7),
         some (.rarray [4] 7), some (.rscalar 3)]) 0 [] =
      .ok [("coeff", Value.scalar (some 3)),
           ("B", Value.array (some [4]) (some 7)),
           ("A", Value.array (some [4]) (some 7)),
           ("D", Value.array none none),
           ("C", Value.array (some [4]) (some 7))] ∧
     alookup [("coeff", Value.scalar (some 3)),
           ("B", Value.array (some [4]) (some 7)),
           ("A", Value.array (some [4]) (some 7)),
           ("D", Value.array none none),
           ("C", Value.array (some [4]) (some 7))] "D" =
        some (Value.array none none)) ∧
    wrapLoop (dummyLeafSig.zip
        [some (.rarray [4] 7), some (.rarray [4] 7), some (.rarray [4] 7),
         some (.rscalar 3), some (.rarray [4] 7)]) 0 [] =
      .error (.typeError "Incorrect type of argument 4") := by
  refine ⟨⟨by decide, ?_⟩, ?_⟩
  · exact (claim_C8 dummyLeafSig
      [some (.rarray [4] 7), none, some (.rarray [4] 7),
       some (.rarray [4] 7), some (.rscalar 3)]
      (by decide) (by decide)).1 _ (by decide) 1 (by decide) (by decide)
  · exact (claim_C8 dummyLeafSig
      [some (.rarray [4] 7), some (.rarray [4] 7), some (.rarray [4] 7),
       some (.rscalar 3), some (.rarray [4] 7)]
      (by decide) (by decide)).2 3 (by decide) (.rscalar 3) (by decide)
      (by decide) (by decide)

/-! ## C1: the scalar-override step between the two propagation passes -/

/-- The scalar assignments performed by the override loop, latest first:
looking a name up here gives the value the loop's last assignment to that
name wrote (Python dict semantics). -/
def scalarOverrides (base_values : List (String × Value)) :
    List (String × Value) :=
  (base_values.filter (fun p => p.2.is_array = false)).reverse

theorem alookup_overrideScalars (values : VMap)
    (bv : List (String × Value)) (n : String) :
    alookup (overrideScalars values bv) n =
      match alookup (scalarOverrides bv) n with
      | some v => some v
      | none => alookup values n := by
  induction bv generalizing values with
  | nil => rfl
  | cons p rest ih =>
    have hstep : overrideScalars values (p :: rest) =
        overrideScalars (if p.2.is_array then values else (p.1, p.2) :: values)
          rest := by
      simp [overrideScalars]
    rw [hstep]
    by_cases hp : p.2.is_array
    · rw [if_pos hp, ih]
      have hs : scalarOverrides (p :: rest) = scalarOverrides rest := by
        simp [scalarOverrides, List.filter_cons, hp]
      rw [hs]
    · rw [if_neg hp, ih]
      have hs : scalarOverrides (p :: rest) = scalarOverrides rest ++ [p] := by
        simp [scalarOverrides, List.filter_cons, hp]
      rw [hs, alookup_append]
      cases h : alookup (scalarOverrides rest) n with
      | some v => rfl
      | none =>
        by_cases hn : p.1 = n
        · simp [alookup, hn]
        · simp [alookup, hn]

theorem scalarOverrides_mem {bv : List (String × Value)} {n : String}
    {v : Value} (h : alookup (scalarOverrides bv) n = some v) :
    (n, v) ∈ bv ∧ v.is_array = false := by
  have hm := alookup_mem h
  unfold scalarOverrides at hm
  rw [List.mem_reverse] at hm
  have := List.mem_filter.mp hm
  exact ⟨this.1, by simpa using this.2⟩

/-- **C1.** In `prepare_for`'s basis negotiation, between the first and
second propagation pass exactly the scalar (non-array) base Values returned
by the computation's argument-Value function for the tentative Basis replace
the corresponding entries of the leaf-value map — a name with a (latest)
scalar base Value reads back as that Value, every other name reads back
unchanged — while every array entry of the map is left unchanged; the second
`propagate_to_base` runs on this corrected map, the Basis is recomputed from
the resulting base values, and that recomputed Basis is the one
`prepare_for` stores as authoritative. -/
theorem claim_C1 (C : CompModel) (args : List (Option RtArg)) (kwds : Kwds)
    (values : VMap) (bv1 : List Value) (b1 : BasisDict)
    (hlen : args.length = C.leafSig.length)
    (hwrap : wrapLoop (C.leafSig.zip args) 0 [] = .ok values)
    (hprop : C.propagate values = .ok bv1)
    (hbasis : C.getBasisFor bv1 kwds = .ok b1)
    (hkind : ∀ p ∈ C.getArgvalues b1,
      ((alookup values p.1).all (fun va => va.is_array == p.2.is_array)) = true) :
    (∀ n v, alookup (scalarOverrides (C.getArgvalues b1)) n = some v →
      alookup (overrideScalars values (C.getArgvalues b1)) n = some v ∧
      v.is_array = false) ∧
    (∀ n, alookup (scalarOverrides (C.getArgvalues b1)) n = none →
      alookup (overrideScalars values (C.getArgvalues b1)) n =
        alookup values n) ∧
    (∀ n va, alookup values n = some va → va.is_array = true →
      alookup (overrideScalars values (C.getArgvalues b1)) n = some va) ∧
    basis_for C args kwds =
      (match C.propagate (overrideScalars values (C.getArgvalues b1)) with
       | .ok bv2 => C.getBasisFor bv2 kwds
       | .error e => .error e) ∧
    (∀ st b, st.state = STATE_INITIALIZED → basis_for C args kwds = .ok b →
      (prepare_for C st args kwds).1.basis = some b ∧
      (prepare_for C st args kwds).2 = .ok ()) := by
  refine ⟨?_, ?_, ?_, ?_, ?_⟩
  · intro n v h
    refine ⟨?_, (scalarOverrides_mem h).2⟩
    rw [alookup_overrideScalars, h]
  · intro n h
    rw [alookup_overrideScalars, h]
  · intro n va hva hvaarr
    rw [alookup_overrideScalars]
    cases h : alookup (scalarOverrides (C.getArgvalues b1)) n with
    | none => exact hva
    | some v =>
      obtain ⟨hmem, hsc⟩ := scalarOverrides_mem h
      have := hkind (n, v) hmem
      rw [hva] at this
      simp only [Option.all_some, beq_iff_eq] at this
      rw [hvaarr, hsc] at this
      cases this
  · unfold basis_for
    rw [if_neg (by omega)]
    simp only [bind, Except.bind, hwrap, hprop, hbasis]
    cases hp2 : C.propagate (overrideScalars values (C.getArgvalues b1)) with
    | ok bv2 => rfl
    | error e => rfl
  · intro st b hst hb
    unfold prepare_for
    rw [hst]
    simp only [STATE_INITIALIZED, STATE_NOT_INITIALIZED, STATE_PREPARED]
    rw [if_neg (by omega), if_neg (by omega), hb]
    by_cases hpfx : st.pfx = ""
    · simp [hpfx]
    · simp [hpfx]

/-- Concrete inputs for the C1/C2 witnesses: a `Dummy` prepared for four
size-4 arrays of dtype tag 7 and a scalar of dtype tag 3. -/
def c1Args : List (Option RtArg) :=
  [some (.rarray [4] 7), some (.rarray [4] 7), some (.rarray [4] 7),
   some (.rarray [4] 7), some (.rscalar 3)]

/-- The wrapped leaf-value map for `c1Args`. -/
def c1Values : VMap :=
  [("coeff", .scalar (some 3)), ("B", .array (some [4]) (some 7)),
   ("A", .array (some [4]) (some 7)), ("D", .array (some [4]) (some 7)),
   ("C", .array (some [4]) (some 7))]

/-- The pass-1 base values for `c1Args`. -/
def c1Bv1 : List Value :=
  [.array (some [4]) (some 7), .array (some [4]) (some 7),
   .array (some [4]) (some 7), .array (some [4]) (some 7),
   .scalar (some 3)]

/-- The tentative (and, here, final) basis for `c1Args`. -/
def c1B1 : BasisDict :=
  [("arr_dtype", .dt (some 7)), ("coeff_dtype", .dt (some 3)),
   ("size", .num (some 4))]

/-- Witness for C1 at the concrete `Dummy` computation: the scalar base
Value for `coeff` replaces the map entry, the array entry for `C` is left
unchanged, the negotiated basis equals the pass-2 recomputation on the
corrected map, and `prepare_for` stores it. -/
theorem claim_C1_witness :
    (alookup (overrideScalars c1Values (dummyModel.getArgvalues c1B1))
        "coeff" = some (Value.scalar (some 3)) ∧
      (Value.scalar (some 3 : Option Dtype)).is_array = false) ∧
    alookup (overrideScalars c1Values (dummyModel.getArgvalues c1B1)) "C" =
      some (Value.array (some [4]) (some 7)) ∧
    (prepare_for dummyModel (dummyInitState false) c1Args []).1.basis =
      some c1B1 := by
  have h := claim_C1 dummyModel c1Args [] c1Values c1Bv1 c1B1
    (by decide) (by decide) (by decide) (by decide) (by decide)
  refine ⟨h.1 "coeff" (Value.scalar (some 3)) (by decide), ?_, ?_⟩
  · exact h.2.2.1 "C" (Value.array (some [4]) (some 7)) (by decide) (by decide)
  · exact (h.2.2.2.2 (dummyInitState false) c1B1 (by decide) (by decide)).1

/-! ## C2: two-pass basis negotiation is idempotent (for the test suite's
`Dummy` computation) -/

/-- `_basis_for` extended by a third override-propagate-recompute round
whose scalar overrides come from the authoritative base Values implied by
the pass-2 Basis. -/
def basis_for_third (C : CompModel) (args : List (Option RtArg))
    (kwds : Kwds) : Except PyErr BasisDict :=
  let pairs := C.leafSig
  if args.length ≠ pairs.length then
    .error (.typeError ("Computation takes " ++ toString pairs.length ++
      " arguments (" ++ toString args.length ++ " given)"))
  else do
    let values ← wrapLoop (pairs.zip args) 0 []
    let bv1 ← C.propagate values
    let basis ← C.getBasisFor bv1 kwds
    let values2 := overrideScalars values (C.getArgvalues basis)
    let bv2 ← C.propagate values2
    let basis2 ← C.getBasisFor bv2 kwds
    let values3 := overrideScalars values2 (C.getArgvalues basis2)
    let bv3 ← C.propagate values3
    C.getBasisFor bv3 kwds

theorem wrapEntry_is_array {p : (String × Value) × Option RtArg}
    (h : kindOk p = true) : (wrapEntry p).is_array = p.1.2.is_array := by
  obtain ⟨⟨n, v⟩, a⟩ := p
  cases a with
  | none =>
    show (if v.is_array then Value.array none none
      else Value.scalar none).is_array = v.is_array
    cases hv : v.is_array <;> simp [hv, Value.is_array]
  | some r => simpa [kindOk, wrapEntry] using h

/-- **C2.** Two-pass basis negotiation is idempotent for the test suite's
`Dummy` computation: for every argument list accepted by `prepare_for`,
running a third propagate-to-base-and-recompute-Basis pass, with the scalar
overrides taken from the authoritative base Values implied by the pass-2
Basis, yields a Basis equal to the pass-2 Basis. -/
theorem claim_C2 (args : List (Option RtArg)) (kwds : Kwds) (b2 : BasisDict)
    (h : basis_for dummyModel args kwds = .ok b2) :
    basis_for_third dummyModel args kwds = .ok b2 := by
  by_cases hlen : args.length = (dummyModel.leafSig).length
  case neg =>
    exfalso
    unfold basis_for at h
    rw [if_pos hlen] at h
    cases h
  case pos =>
  have h5 : args.length = 5 := hlen
  rcases args with _ | ⟨a0, _ | ⟨a1, _ | ⟨a2, _ | ⟨a3, _ | ⟨a4, _ | ⟨a5, rest⟩⟩⟩⟩⟩⟩
  · simp at h5
  · simp at h5
  · simp at h5
  · simp at h5
  · simp at h5
  · -- the five-argument case
    clear h5 hlen
    have hsl : (dummyModel.leafSig).length = 5 := rfl
    have hzl : ((dummyModel.leafSig).zip [a0, a1, a2, a3, a4]).length = 5 :=
      rfl
    unfold basis_for at h
    unfold basis_for_third
    rw [if_neg (by simp [hsl])] at h ⊢
    simp only [bind, Except.bind] at h ⊢
    cases hw : wrapLoop ((dummyModel.leafSig).zip [a0, a1, a2, a3, a4]) 0 []
      with
    | error e => rw [hw] at h; simp at h
    | ok values =>
    rw [hw] at h
    dsimp only at h ⊢
    have hnd : (((dummyModel.leafSig).zip [a0, a1, a2, a3, a4]).map
        (fun p => p.1.1)).Nodup := by
      show (["C", "D", "A", "B", "coeff"] : List String).Nodup
      decide
    have h0 := wrapLoop_ok_get hnd hw 0 (by omega)
    have h1 := wrapLoop_ok_get hnd hw 1 (by omega)
    have h2 := wrapLoop_ok_get hnd hw 2 (by omega)
    have h3 := wrapLoop_ok_get hnd hw 3 (by omega)
    have h4 := wrapLoop_ok_get hnd hw 4 (by omega)
    have hvC : alookup values "C" =
        some (wrapEntry (("C", Value.array none none), a0)) := h0.1
    have hvD : alookup values "D" =
        some (wrapEntry (("D", Value.array none none), a1)) := h1.1
    have hvA : alookup values "A" =
        some (wrapEntry (("A", Value.array none none), a2)) := h2.1
    have hvB : alookup values "B" =
        some (wrapEntry (("B", Value.array none none), a3)) := h3.1
    have hvK : alookup values "coeff" =
        some (wrapEntry (("coeff", Value.scalar none), a4)) := h4.1
    have hkK : (wrapEntry (("coeff", Value.scalar none), a4)).is_array
        = false := by
      simpa [Value.is_array] using
        @wrapEntry_is_array (("coeff", Value.scalar none), a4) h4.2
    generalize hgC : wrapEntry (("C", Value.array none none), a0) = vC at hvC
    generalize hgD : wrapEntry (("D", Value.array none none), a1) = vD at hvD
    generalize hgA : wrapEntry (("A", Value.array none none), a2) = vA at hvA
    generalize hgB : wrapEntry (("B", Value.array none none), a3) = vB at hvB
    generalize hgK : wrapEntry (("coeff", Value.scalar none), a4) = vK
      at hvK hkK
    clear hgC hgD hgA hgB hgK h0 h1 h2 h3 h4
    cases vK with
    | array s d => simp [Value.is_array] at hkK
    | scalar gg =>
    have hp1 : dummyModel.propagate values =
        .ok [vC, vD, vA, vB, Value.scalar gg] := by
      simp [dummyModel, trivialPropagate, hvC, hvD, hvA, hvB, hvK]
    rw [hp1] at h ⊢
    dsimp only at h ⊢
    have hgb : ∀ kw : Kwds,
        dummyModel.getBasisFor [vC, vD, vA, vB, Value.scalar gg] kw =
        if vC.dtype = vD.dtype ∧ vD.dtype = vA.dtype ∧ vA.dtype = vB.dtype
        then .ok [("arr_dtype", BVal.dt vC.dtype),
                  ("coeff_dtype", BVal.dt gg), ("size", BVal.num vC.size)]
        else .error .assertionError := by
      intro kw
      simp [dummyModel, dummyGetBasisFor, Value.dtype]
    by_cases hdt : vC.dtype = vD.dtype ∧ vD.dtype = vA.dtype ∧
        vA.dtype = vB.dtype
    case neg =>
      exfalso
      rw [hgb kwds, if_neg hdt] at h
      cases h
    case pos =>
    rw [hgb kwds, if_pos hdt] at h ⊢
    dsimp only at h ⊢
    have hav : dummyModel.getArgvalues
        [("arr_dtype", BVal.dt vC.dtype), ("coeff_dtype", BVal.dt gg),
         ("size", BVal.num vC.size)] =
        [("C", Value.array (vC.size.map (fun n => [n])) vC.dtype),
         ("D", Value.array (vC.size.map (fun n => [n])) vC.dtype),
         ("A", Value.array (vC.size.map (fun n => [n])) vC.dtype),
         ("B", Value.array (vC.size.map (fun n => [n])) vC.dtype),
         ("coeff", Value.scalar gg)] := by
      simp [dummyModel, dummyGetArgvalues, alookup]
    have hov : overrideScalars values (dummyModel.getArgvalues
        [("arr_dtype", BVal.dt vC.dtype), ("coeff_dtype", BVal.dt gg),
         ("size", BVal.num vC.size)]) =
        ("coeff", Value.scalar gg) :: values := by
      rw [hav]
      simp [overrideScalars, Value.is_array]
    rw [hov] at h ⊢
    have hp2 : dummyModel.propagate (("coeff", Value.scalar gg) :: values) =
        .ok [vC, vD, vA, vB, Value.scalar gg] := by
      simp [dummyModel, trivialPropagate, alookup, hvC, hvD, hvA, hvB]
    rw [hp2] at h ⊢
    dsimp only at h ⊢
    rw [hgb kwds, if_pos hdt] at h ⊢
    dsimp only at h ⊢
    have hb2 : b2 = [("arr_dtype", BVal.dt vC.dtype),
        ("coeff_dtype", BVal.dt gg), ("size", BVal.num vC.size)] :=
      (Except.ok.inj h).symm
    subst hb2
    have hov3 : overrideScalars (("coeff", Value.scalar gg) :: values)
        (dummyModel.getArgvalues
          [("arr_dtype", BVal.dt vC.dtype), ("coeff_dtype", BVal.dt gg),
           ("size", BVal.num vC.size)]) =
        ("coeff", Value.scalar gg) :: ("coeff", Value.scalar gg) :: values := by
      rw [hav]
      simp [overrideScalars, Value.is_array]
    rw [hov3]
    have hp3 : dummyModel.propagate
        (("coeff", Value.scalar gg) :: ("coeff", Value.scalar gg) :: values) =
        .ok [vC, vD, vA, vB, Value.scalar gg] := by
      simp [dummyModel, trivialPropagate, alookup, hvC, hvD, hvA, hvB]
    rw [hp3]
    dsimp only
    rw [hgb kwds, if_pos hdt]
  · exfalso
    simp only [List.length_cons] at h5
    omega

/-- Witness for C2: the `Dummy` computation prepared for four size-4 arrays
of dtype tag 7 and a scalar of dtype tag 3 negotiates the basis `c1B1`, and
the third pass reproduces it. -/
theorem claim_C2_witness :
    basis_for dummyModel c1Args [] = .ok c1B1 ∧
    basis_for_third dummyModel c1Args [] = .ok c1B1 :=
  ⟨by decide, claim_C2 c1Args [] c1B1 (by decide)⟩

/-! ## C3: argument vector construction and kernel launches -/

theorem applyCasts_length (sig : List (String × Value)) (args : List RtArg)
    (h : args.length = sig.length) :
    (applyCasts sig args).length = sig.length := by
  simp [applyCasts, List.length_zip, h]

/-- The combined positional argument vector of `__call__` (computation.py
line 276): the cast runtime arguments followed by the finalized buffer
list of `prepare_for` (computation.py lines 218-220). -/
def posArgsOf (C : CompModel) (b : BasisDict) (args : List RtArg) :
    List CallArg :=
  applyCasts C.leafSig args ++
    ((arrNamesOf (C.constructOps b)).map
      (fun n => (alookup (mergedArrays (C.constructOps b)) n).getD 0)).map
      CallArg.buf

/-- The launches issued by `__call__` (computation.py lines 277-279): the
plan's kernels in order, each applied to the entries of the positional
vector at its resolved argument indices. -/
def launchesOf (C : CompModel) (b : BasisDict) (args : List RtArg) :
    List (KernelSpec × List CallArg) :=
  (C.constructOps b).kernels.map (fun k =>
    (k, k.argnames.map (fun n =>
      (posArgsOf C b args).getD
        ((arrayToInt C.leafSig (arrNamesOf (C.constructOps b)) n).getD 0)
        (.buf 0))))

/-- **C3.** For a prepared outermost (non-nested, `prefix = ""`) computation,
`__call__` builds the positional argument vector as the runtime arguments —
each scalar argument cast to the element type fixed at preparation, each
array argument passed through unchanged — followed by the finalized buffer
list, and launches the plan's kernels strictly in plan order, each kernel
receiving exactly the entries of that vector at its resolved argument
indices: a leaf name resolves to its leaf position, an allocation name to
the buffer bound to it. -/
theorem claim_C3 (C : CompModel) (st0 st : CompState)
    (pargs : List (Option RtArg)) (kwds0 : Kwds) (args : List RtArg)
    (b : BasisDict)
    (hst0 : st0.state = STATE_INITIALIZED) (hpfx : st0.pfx = "")
    (hdbg : st0.debug = false)
    (hb : basis_for C pargs kwds0 = .ok b)
    (hprep : prepare_for C st0 pargs kwds0 = (st, .ok ()))
    (hlen : args.length = C.leafSig.length) :
    callRun C st args [] = (st, .ok (launchesOf C b args)) ∧
    (launchesOf C b args).map Prod.fst = (C.constructOps b).kernels ∧
    (∀ i (hi : i < C.leafSig.length),
      (posArgsOf C b args).getD i (.buf 0) =
        if ((C.leafSig.get ⟨i, hi⟩).2).is_array then
          CallArg.run (args.getD i (.rscalar 0))
        else
          CallArg.run (castTo ((C.leafSig.get ⟨i, hi⟩).2).dtype
            (args.getD i (.rscalar 0)))) ∧
    (∀ j (hj : j < (arrNamesOf (C.constructOps b)).length),
      (posArgsOf C b args).getD (C.leafSig.length + j) (.buf 0) =
        CallArg.buf ((alookup (mergedArrays (C.constructOps b))
          ((arrNamesOf (C.constructOps b)).get ⟨j, hj⟩)).getD 0)) ∧
    (∀ n i, idx (C.leafSig.map Prod.fst) n = some i →
      arrayToInt C.leafSig (arrNamesOf (C.constructOps b)) n = some i) ∧
    (∀ n j bufh, idx (C.leafSig.map Prod.fst) n = none →
      idx (arrNamesOf (C.constructOps b)) n = some j →
      alookup (mergedArrays (C.constructOps b)) n = some bufh →
      (posArgsOf C b args).getD
        ((arrayToInt C.leafSig (arrNamesOf (C.constructOps b)) n).getD 0)
        (.buf 0) = CallArg.buf bufh) := by
  have hca : (applyCasts C.leafSig args).length = C.leafSig.length :=
    applyCasts_length _ _ hlen
  -- the positional-vector facts, proved first and reused
  have hvecA : ∀ i (hi : i < C.leafSig.length),
      (posArgsOf C b args).getD i (.buf 0) =
        if ((C.leafSig.get ⟨i, hi⟩).2).is_array then
          CallArg.run (args.getD i (.rscalar 0))
        else
          CallArg.run (castTo ((C.leafSig.get ⟨i, hi⟩).2).dtype
            (args.getD i (.rscalar 0))) := by
    intro i hi
    have hia : i < args.length := by omega
    have hzi : i < (C.leafSig.zip args).length := by
      rw [List.length_zip]
      omega
    unfold posArgsOf
    rw [List.getD_eq_getElem?_getD, List.getElem?_append_left (by omega)]
    unfold applyCasts
    rw [List.getElem?_map, List.getElem?_eq_getElem hzi]
    simp only [Option.map_some', Option.getD_some, List.getElem_zip]
    simp [List.getD_eq_getElem?_getD, List.getElem?_eq_getElem hia,
      List.get_eq_getElem]
  have hvecB : ∀ j (hj : j < (arrNamesOf (C.constructOps b)).length),
      (posArgsOf C b args).getD (C.leafSig.length + j) (.buf 0) =
        CallArg.buf ((alookup (mergedArrays (C.constructOps b))
          ((arrNamesOf (C.constructOps b)).get ⟨j, hj⟩)).getD 0) := by
    intro j hj
    unfold posArgsOf
    rw [List.getD_eq_getElem?_getD, List.getElem?_append_right (by omega)]
    have hsub : C.leafSig.length + j - (applyCasts C.leafSig args).length
        = j := by omega
    rw [hsub, List.getElem?_map, List.getElem?_map,
      List.getElem?_eq_getElem hj]
    simp [List.get_eq_getElem]
  refine ⟨?_, ?_, hvecA, hvecB, ?_, ?_⟩
  · -- the call itself
    unfold prepare_for at hprep
    rw [hst0] at hprep
    rw [if_neg (by decide), if_neg (by decide), hb] at hprep
    dsimp only at hprep
    rw [if_pos hpfx] at hprep
    have hstrec := congrArg Prod.fst hprep
    dsimp only at hstrec
    subst hstrec
    unfold callRun
    rw [if_neg (by simp [STATE_PREPARED])]
    dsimp only
    rw [hdbg]
    rw [if_neg (by simp), if_neg (by simp)]
    dsimp only
    rw [if_neg (by simp [hlen])]
    unfold launchesOf posArgsOf
    simp [List.map_map, Function.comp]
  · unfold launchesOf
    rw [List.map_map]
    have hid : (Prod.fst ∘ fun k : KernelSpec =>
        (k, k.argnames.map (fun n =>
          (posArgsOf C b args).getD
            ((arrayToInt C.leafSig (arrNamesOf (C.constructOps b)) n).getD 0)
            (.buf 0)))) = id := rfl
    rw [hid, List.map_id]
  · intro n i hidx
    unfold arrayToInt
    rw [hidx]
  · intro n j bufh hnone hj hbuf
    have harr : arrayToInt C.leafSig (arrNamesOf (C.constructOps b)) n =
        some (j + C.leafSig.length) := by
      unfold arrayToInt
      rw [hnone, hj]
      rfl
    rw [harr]
    obtain ⟨hjlt, hget⟩ := idx_get hj
    have hcomm : (some (j + C.leafSig.length)).getD 0 =
        C.leafSig.length + j := by
      simp [Nat.add_comm]
    rw [hcomm, hvecB j hjlt, hget, hbuf]
    rfl

/-- The `Dummy` leaf signature as `prepare_for` reads it — with the Values
resolved by the propagation passes (size-4 arrays of dtype tag 7, scalar of
dtype tag 3). -/
def dummyLeafSigR : List (String × Value) :=
  [("C", .array (some [4]) (some 7)), ("D", .array (some [4]) (some 7)),
   ("A", .array (some [4]) (some 7)), ("B", .array (some [4]) (some 7)),
   ("coeff", .scalar (some 3))]

/-- The `Dummy` model with the resolved leaf signature. -/
def dummyModelR : CompModel := { dummyModel with leafSig := dummyLeafSigR }

/-- The state of a `Dummy` instance after `prepare_for` on `c1Args`. -/
def c3State : CompState :=
  { debug := false
    pfx := ""
    tree := baseTree ["C", "D"] ["A", "B"] ["coeff"]
    state := STATE_PREPARED
    basis := some c1B1
    leafSigP := dummyLeafSigR
    arraysList := [100, 101]
    kernels := [(⟨["_c_temp", "_d_temp", "A", "B", "coeff"]⟩, [5, 6, 2, 3, 4]),
                (⟨["C", "D", "_c_temp", "_d_temp"]⟩, [0, 1, 5, 6])] }

/-- The call arguments of the C3 witness. -/
def c3CallArgs : List RtArg :=
  [.rarray [4] 7, .rarray [4] 7, .rarray [4] 7, .rarray [4] 7, .rscalar 3]

/-- Witness for C3: the prepared `Dummy` launches its two kernels in plan
order with the arguments selected from the positional vector, and the
allocation name `_c_temp` resolves to its buffer. -/
theorem claim_C3_witness :
    callRun dummyModelR c3State c3CallArgs [] =
      (c3State, .ok (launchesOf dummyModelR c1B1 c3CallArgs)) ∧
    (posArgsOf dummyModelR c1B1 c3CallArgs).getD
        ((arrayToInt dummyModelR.leafSig
          (arrNamesOf (dummyModelR.constructOps c1B1)) "_c_temp").getD 0)
        (.buf 0) = CallArg.buf 100 := by
  have h := claim_C3 dummyModelR (dummyInitState false) c3State c1Args []
    c3CallArgs c1B1 (by decide) (by decide) (by decide) (by decide)
    (by decide) (by decide)
  exact ⟨h.1, h.2.2.2.2.2 "_c_temp" 0 100 (by decide) (by decide) (by decide)⟩

/-! ## C4: the invalid-argument conditions of `connect` -/

/-- The target is not an existing leaf node. -/
def targetNotLeaf (t : TrTree) (target : String) : Bool :=
  match alookup t.nodes target with
  | none => true
  | some nd => !nd.leaf

/-- The target's array/scalar kind mismatches the transformation's (array)
connection point. -/
def targetKindMismatch (t : TrTree) (target : String) : Bool :=
  match alookup t.nodes target with
  | none => false
  | some nd => nd.kind == Kind.scalar

/-- The transformation's declared input/output/scalar arities differ from
the lengths of the supplied name lists (relative to the target's role). -/
def arityMismatch (t : TrTree) (tr : Transformation) (target : String)
    (newA newS : List String) : Bool :=
  match alookup t.nodes target with
  | none => false
  | some nd =>
    ((nd.role == Role.output) &&
      (tr.inputs != 1 || newA.length != tr.outputs)) ||
    ((!(nd.role == Role.output)) &&
      (tr.outputs != 1 || newA.length != tr.inputs)) ||
    newS.length != tr.scalars

/-- Some new name is malformed. -/
def badNewName (newA newS : List String) : Bool :=
  (newA ++ newS).any (fun n => !validName n)

/-- Some new name collides with an existing node in a disallowed way: any
collision of a new output-side array name (in particular aliasing an
existing output node), a new input-side array name colliding with anything
but an existing input-role array node, or a new scalar name colliding with
anything but an existing scalar node. -/
def badAlias (t : TrTree) (target : String) (newA newS : List String) :
    Bool :=
  match alookup t.nodes target with
  | none => false
  | some nd =>
    newA.any (fun n =>
      match alookup t.nodes n with
      | some nd' => !arrayAliasOk (nd.role == Role.output) nd'
      | none => false) ||
    newS.any (fun n =>
      match alookup t.nodes n with
      | some nd' => !(nd'.kind == Kind.scalar)
      | none => false)

theorem addNewNodes_lookup_present (node : Node) (names : List String)
    (ns : List (String × Node)) (k : String)
    (h : (alookup ns k).isSome) :
    alookup (addNewNodes node names ns) k = alookup ns k := by
  induction names generalizing ns with
  | nil => rfl
  | cons n rest ih =>
    have hstep : addNewNodes node (n :: rest) ns =
        addNewNodes node rest
          (if (alookup ns n).isSome then ns else (n, node) :: ns) := rfl
    rw [hstep]
    by_cases hp : (alookup ns n).isSome
    · rw [if_pos hp]
      exact ih ns h
    · rw [if_neg hp]
      have hne : n ≠ k := fun he => hp (he ▸ h)
      have hcons : alookup ((n, node) :: ns) k = alookup ns k := by
        simp [alookup, hne]
      rw [ih _ (by rw [hcons]; exact h), hcons]

/-- **C4.** `connect` raises an invalid-argument error exactly when the
target is not an existing leaf node, the target's array/scalar kind
mismatches the transformation's connection point, the transformation's
declared input/output/scalar arities differ from the lengths of the
supplied name lists, a new name is malformed or collides with an existing
node in a disallowed way (in particular, a new output name aliasing an
existing output node); otherwise — in particular when a new input or scalar
name aliases an existing input or scalar node — it succeeds, the target
becomes internal, and an aliased existing name keeps its node binding. -/
theorem claim_C4 (t : TrTree) (tr : Transformation) (target : String)
    (newA newS : List String) :
    ((∃ e, t.connect tr target newA newS = .error e) ↔
      (targetNotLeaf t target = true ∨ targetKindMismatch t target = true ∨
       arityMismatch t tr target newA newS = true ∨
       badNewName newA newS = true ∨
       badAlias t target newA newS = true)) ∧
    (∀ t', t.connect tr target newA newS = .ok t' →
      (∀ nd, alookup t.nodes target = some nd →
        alookup t'.nodes target = some { nd with leaf := false }) ∧
      (∀ n, (alookup t.nodes n).isSome → n ≠ target →
        alookup t'.nodes n = alookup t.nodes n)) := by
  unfold TrTree.connect
  cases hl : alookup t.nodes target with
  | none =>
    refine ⟨⟨fun _ => Or.inl (by simp [targetNotLeaf, hl]),
      fun _ => ⟨_, rfl⟩⟩, ?_⟩
    intro t' ht'
    simp at ht'
  | some nd =>
    dsimp only
    by_cases hc1 : nd.leaf = false
    · rw [if_pos hc1]
      refine ⟨⟨fun _ => Or.inl (by simp [targetNotLeaf, hl, hc1]),
        fun _ => ⟨_, rfl⟩⟩, ?_⟩
      intro t' ht'
      simp at ht'
    rw [if_neg hc1]
    by_cases hc2 : nd.kind = Kind.scalar
    · rw [if_pos hc2]
      refine ⟨⟨fun _ => Or.inr (Or.inl
        (by simp [targetKindMismatch, hl, hc2])),
        fun _ => ⟨_, rfl⟩⟩, ?_⟩
      intro t' ht'
      simp at ht'
    rw [if_neg hc2]
    by_cases hc3a : ((nd.role == Role.output) &&
        (tr.inputs != 1 || newA.length != tr.outputs)) = true
    · rw [if_pos hc3a]
      refine ⟨⟨fun _ => Or.inr (Or.inr (Or.inl ?_)),
        fun _ => ⟨_, rfl⟩⟩, ?_⟩
      · simp only [arityMismatch, hl]
        rw [Bool.or_eq_true, Bool.or_eq_true]
        exact Or.inl (Or.inl hc3a)
      · intro t' ht'
        simp at ht'
    rw [if_neg hc3a]
    by_cases hc3b : ((!(nd.role == Role.output)) &&
        (tr.outputs != 1 || newA.length != tr.inputs)) = true
    · rw [if_pos hc3b]
      refine ⟨⟨fun _ => Or.inr (Or.inr (Or.inl ?_)),
        fun _ => ⟨_, rfl⟩⟩, ?_⟩
      · simp only [arityMismatch, hl]
        rw [Bool.or_eq_true, Bool.or_eq_true]
        exact Or.inl (Or.inr hc3b)
      · intro t' ht'
        simp at ht'
    rw [if_neg hc3b]
    by_cases hc4 : (newS.length != tr.scalars) = true
    · rw [if_pos hc4]
      refine ⟨⟨fun _ => Or.inr (Or.inr (Or.inl ?_)),
        fun _ => ⟨_, rfl⟩⟩, ?_⟩
      · simp only [arityMismatch, hl]
        rw [Bool.or_eq_true, Bool.or_eq_true]
        exact Or.inr hc4
      · intro t' ht'
        simp at ht'
    rw [if_neg hc4]
    by_cases hc5 : ((newA ++ newS).any (fun n => !validName n)) = true
    · rw [if_pos hc5]
      refine ⟨⟨fun _ => Or.inr (Or.inr (Or.inr (Or.inl hc5))),
        fun _ => ⟨_, rfl⟩⟩, ?_⟩
      intro t' ht'
      simp at ht'
    rw [if_neg hc5]
    by_cases hc6 : (newA.any (fun n =>
        match alookup t.nodes n with
        | some nd' => !arrayAliasOk (nd.role == Role.output) nd'
        | none => false)) = true
    · rw [if_pos hc6]
      refine ⟨⟨fun _ => Or.inr (Or.inr (Or.inr (Or.inr ?_))),
        fun _ => ⟨_, rfl⟩⟩, ?_⟩
      · simp only [badAlias, hl]
        rw [Bool.or_eq_true]
        exact Or.inl hc6
      · intro t' ht'
        simp at ht'
    rw [if_neg hc6]
    by_cases hc7 : (newS.any (fun n =>
        match alookup t.nodes n with
        | some nd' => !(nd'.kind == Kind.scalar)
        | none => false)) = true
    · rw [if_pos hc7]
      refine ⟨⟨fun _ => Or.inr (Or.inr (Or.inr (Or.inr ?_))),
        fun _ => ⟨_, rfl⟩⟩, ?_⟩
      · simp only [badAlias, hl]
        rw [Bool.or_eq_true]
        exact Or.inr hc7
      · intro t' ht'
        simp at ht'
    rw [if_neg hc7]
    constructor
    · constructor
      · rintro ⟨e, he⟩
        simp at he
      · intro hdisj
        exfalso
        rcases hdisj with h | h | h | h | h
        · simp [targetNotLeaf, hl] at h
          exact hc1 h
        · simp [targetKindMismatch, hl] at h
          exact hc2 h
        · simp only [arityMismatch, hl] at h
          rw [Bool.or_eq_true, Bool.or_eq_true] at h
          rcases h with (h | h) | h
          · exact hc3a h
          · exact hc3b h
          · exact hc4 h
        · exact hc5 h
        · simp only [badAlias, hl] at h
          rw [Bool.or_eq_true] at h
          rcases h with h | h
          · exact hc6 h
          · exact hc7 h
    · intro t' ht'
      have ht'' := Except.ok.inj ht'
      subst ht''
      constructor
      · intro nd0 hnd0
        have hnd : nd0 = nd := (Option.some.inj hnd0).symm
        subst hnd
        show alookup (addNewNodes _ newS (addNewNodes _ newA _)) target =
          some { nd0 with leaf := false }
        rw [addNewNodes_lookup_present, addNewNodes_lookup_present]
        · simp [alookup]
        · simp [alookup]
        · rw [addNewNodes_lookup_present]
          · simp [alookup]
          · simp [alookup]
      · intro n hn hne
        show alookup (addNewNodes _ newS (addNewNodes _ newA _)) n =
          alookup t.nodes n
        have hne' : target ≠ n := fun h => hne h.symm
        have hcons : alookup ((target, { nd with leaf := false }) ::
            t.nodes) n = alookup t.nodes n := by
          simp [alookup, hne']
        rw [addNewNodes_lookup_present, addNewNodes_lookup_present]
        · exact hcons
        · rw [hcons]
          exact hn
        · rw [addNewNodes_lookup_present]
          · rw [hcons]
            exact hn
          · rw [hcons]
            exact hn

/-- The base tree of the `Dummy` computation. -/
def dTree : TrTree := baseTree ["C", "D"] ["A", "B"] ["coeff"]

/-- The tree after `connect(tr_trivial, 'A', ['B'])` — the base-array alias
of `test_connection_to_base`. -/
def c4Tree : TrTree :=
  { nodes := [("A", ⟨Kind.array, Role.input, false⟩),
              ("C", ⟨Kind.array, Role.output, true⟩),
              ("D", ⟨Kind.array, Role.output, true⟩),
              ("A", ⟨Kind.array, Role.input, true⟩),
              ("B", ⟨Kind.array, Role.input, true⟩),
              ("coeff", ⟨Kind.scalar, Role.param, true⟩)] }

/-- Witness for C4: on the `Dummy` base tree, connecting an identity
transformation to the scalar `coeff` fails (kind mismatch), while
connecting it to the array input `A` with the aliasing new name `B` —
an existing input node — succeeds and leaves `B`'s binding in place
(`test_non_array_connection` / `test_connection_to_base`). -/
theorem claim_C4_witness :
    (∃ e, dTree.connect ⟨1, 1, 0⟩ "coeff" ["A_prime"] [] = .error e) ∧
    alookup c4Tree.nodes "B" = alookup dTree.nodes "B" := by
  constructor
  · exact (claim_C4 dTree ⟨1, 1, 0⟩ "coeff" ["A_prime"] []).1.mpr
      (Or.inr (Or.inl (by decide)))
  · exact ((claim_C4 dTree ⟨1, 1, 0⟩ "A" ["B"] []).2 c4Tree (by decide)).2
      "B" (by decide) (by decide)

end Reikna
